import Mathlib

/-!
Shallow embedding of the POS system multi-currency and discount/pricing
core.

The exchange-rate store is embedded from the SQL schema and the plpgsql
functions `get_current_exchange_rate`, `convert_currency_amount` and
`update_exchange_rate` of the multi-currency schema file.  The
TypeScript `CurrencyUtils` layer (read-through cache, formatting,
registry queries) is embedded from `currencyUtils.ts`.  Numeric DECIMAL
and JS number amounts are modelled as rationals; SQL timestamps and
`Date.now()` values as naturals.  Opaque row identifiers and
created/updated audit timestamps are omitted: no modelled operation
reads them.
-/

/-- A row of the `exchange_rates` table.  `effectiveTo = none` models the
SQL NULL, meaning the record is currently active. -/
structure ExchangeRate where
  baseCurrency : String
  targetCurrency : String
  rate : ℚ
  source : String
  isManualOverride : Bool
  effectiveFrom : Nat
  effectiveTo : Option Nat
  deriving Repr, DecidableEq

/-- A row of the `exchange_rate_history` table. -/
structure ExchangeRateHistory where
  baseCurrency : String
  targetCurrency : String
  rate : ℚ
  previousRate : Option ℚ
  changePercentage : Option ℚ
  source : String
  isManualOverride : Bool
  recordedAt : Nat
  deriving Repr, DecidableEq

/-- The database state touched by the exchange-rate functions: the
`exchange_rates` table and the append-only `exchange_rate_history`
table, each as a list of rows in insertion order. -/
structure RateStore where
  rates : List ExchangeRate
  history : List ExchangeRateHistory
  deriving Repr, DecidableEq

def emptyStore : RateStore := { rates := [], history := [] }

/-- The SQL active-row filter `effective_to IS NULL OR effective_to > NOW()`
used by all three plpgsql functions. -/
def isActiveAt (now : Nat) (r : ExchangeRate) : Bool :=
  match r.effectiveTo with
  | none => true
  | some t => now < t

/-- Rows of `exchange_rates` matching
`base_currency = base AND target_currency = target` and the active-row
filter, i.e. the WHERE clause shared by the rate lookup queries. -/
def activeRecords (rates : List ExchangeRate) (base target : String) (now : Nat) :
    List ExchangeRate :=
  rates.filter fun r =>
    r.baseCurrency == base && r.targetCurrency == target && isActiveAt now r

/-- `ORDER BY effective_from DESC LIMIT 1`: the row with the greatest
`effective_from` among the candidates (`none` when there are no rows). -/
def mostRecentRecord (rs : List ExchangeRate) : Option ExchangeRate :=
  rs.foldl
    (fun acc r =>
      match acc with
      | none => some r
      | some a => if a.effectiveFrom < r.effectiveFrom then some r else some a)
    none

/-- The plpgsql function `get_current_exchange_rate`: identity for a same
currency pair, else the most recent active direct rate, else the
reciprocal of the most recent active reverse rate, else the `1.0`
fallback (`COALESCE(current_rate, 1.0)`). -/
def get_current_exchange_rate (rates : List ExchangeRate) (base target : String)
    (now : Nat) : ℚ :=
  if base == target then 1
  else
    match mostRecentRecord (activeRecords rates base target now) with
    | some r => r.rate
    | none =>
      match mostRecentRecord (activeRecords rates target base now) with
      | some r => 1 / r.rate
      | none => 1

/-- The plpgsql function `convert_currency_amount`. -/
def convert_currency_amount (rates : List ExchangeRate) (amount : ℚ)
    (fromCurrency toCurrency : String) (now : Nat) : ℚ :=
  amount * get_current_exchange_rate rates fromCurrency toCurrency now

/-- The effect of the closing UPDATE statement on one row: rows of the
pair passing the active-row filter get `effective_to = NOW()`. -/
def closeOne (base target : String) (now : Nat) (r : ExchangeRate) : ExchangeRate :=
  if r.baseCurrency == base && r.targetCurrency == target && isActiveAt now r
  then { r with effectiveTo := some now }
  else r

/-- The closing UPDATE statement of `update_exchange_rate` applied to the
whole `exchange_rates` table. -/
def closeActive (rates : List ExchangeRate) (base target : String) (now : Nat) :
    List ExchangeRate :=
  rates.map (closeOne base target now)

/-- The plpgsql function `update_exchange_rate`: read the most recent
active rate as `previous_rate`, derive `change_percentage` when a
positive previous rate exists, close every active row of the pair
(`SET effective_to = NOW()`), insert the new active row, and append one
history row. -/
def update_exchange_rate (s : RateStore) (base target : String) (rate : ℚ)
    (source : String) (isManualOverride : Bool) (now : Nat) : RateStore :=
  let prev : Option ℚ :=
    (mostRecentRecord (activeRecords s.rates base target now)).map (·.rate)
  let changePct : Option ℚ :=
    match prev with
    | some p => if 0 < p then some ((rate - p) / p * 100) else none
    | none => none
  let closed : List ExchangeRate := closeActive s.rates base target now
  let newRow : ExchangeRate :=
    { baseCurrency := base, targetCurrency := target, rate := rate
      source := source, isManualOverride := isManualOverride
      effectiveFrom := now, effectiveTo := none }
  let histRow : ExchangeRateHistory :=
    { baseCurrency := base, targetCurrency := target, rate := rate
      previousRate := prev, changePercentage := changePct
      source := source, isManualOverride := isManualOverride
      recordedAt := now }
  { rates := closed ++ [newRow], history := s.history ++ [histRow] }

/-- One call to `update_exchange_rate` with its arguments, used to state
properties over arbitrary call sequences. -/
structure UpdateOp where
  base : String
  target : String
  rate : ℚ
  source : String
  isManualOverride : Bool
  time : Nat
  deriving Repr, DecidableEq

def applyOp (s : RateStore) (op : UpdateOp) : RateStore :=
  update_exchange_rate s op.base op.target op.rate op.source op.isManualOverride op.time

def runUpdates (s : RateStore) (ops : List UpdateOp) : RateStore :=
  ops.foldl applyOp s

/-- Number of rows of the pair `(base, target)` with `effective_to IS NULL`,
i.e. the currently-active records of the pair in the claimed invariant. -/
def countNullFor (rates : List ExchangeRate) (base target : String) : Nat :=
  rates.countP fun r =>
    r.baseCurrency == base && r.targetCurrency == target && r.effectiveTo.isNone

/-!
The TypeScript `CurrencyUtils` layer of `currencyUtils.ts`: a static
class wrapping the database functions with a read-through cache
(`cachedRates : Map<string, { rate, timestamp }>` keyed by the string
`base ++ "_" ++ target`, TTL 5 minutes), plus registry queries over the
`currency_config` table and display formatting.  Database tables are
passed in explicitly; the JS `Map` is an association list.  The
database-error throw paths (`if (error) throw error`) depend only on
the environment, never on the data, and are not modelled.
-/

structure CacheEntry where
  rate : ℚ
  timestamp : Nat
  deriving Repr, DecidableEq

abbrev RateCache := List (String × CacheEntry)

def cacheLookup (c : RateCache) (k : String) : Option CacheEntry :=
  (c.find? fun p => p.1 == k).map (·.2)

/-- JS `Map.set`: replace the entry when the key is present, else add it. -/
def cacheSet (c : RateCache) (k : String) (e : CacheEntry) : RateCache :=
  if c.any (fun p => p.1 == k) then
    c.map fun p => if p.1 == k then (k, e) else p
  else
    c ++ [(k, e)]

/-- JS `Map.delete`. -/
def cacheDelete (c : RateCache) (k : String) : RateCache :=
  c.filter fun p => p.1 != k

/-- `CACHE_DURATION = 5 * 60 * 1000` milliseconds. -/
def CACHE_DURATION : Nat := 5 * 60 * 1000

/-- The `symbol_position` column: before or after the amount. -/
inductive SymbolPosition where
  | before
  | after
  deriving Repr, DecidableEq

/-- A row of the `currency_config` table, equally the TS `CurrencyConfig`
interface (opaque id and audit timestamps omitted). -/
structure CurrencyConfig where
  code : String
  name : String
  symbol : String
  symbolPosition : SymbolPosition
  decimalPlaces : Nat
  isActive : Bool
  isBaseCurrency : Bool
  deriving Repr, DecidableEq

/-- The TS `CurrencyConversion` result interface. -/
structure CurrencyConversion where
  originalAmount : ℚ
  convertedAmount : ℚ
  fromCurrency : String
  toCurrency : String
  exchangeRate : ℚ
  timestamp : Nat
  deriving Repr, DecidableEq

/-- The character of a decimal digit. -/
def digitChar (n : Nat) : Char := Char.ofNat (48 + n % 10)

/-- The `dp` decimal digits of `n < 10 ^ dp`, most significant first. -/
def fracDigits : (dp : Nat) → (n : Nat) → List Char
  | 0, _ => []
  | d + 1, n => digitChar (n / 10 ^ d) :: fracDigits d (n % 10 ^ d)

/-- JS `Number.prototype.toFixed` on exact rationals: round
`|q| * 10 ^ dp` to an integer and render it with `dp` digits after the
decimal point (no point at all when `dp = 0`). -/
def toFixed (q : ℚ) (dp : Nat) : String :=
  let sign := if q < 0 then "-" else ""
  let scaled : Nat := (round (|q| * (10 : ℚ) ^ dp)).toNat
  let ip := scaled / 10 ^ dp
  let fp := scaled % 10 ^ dp
  if dp = 0 then sign ++ toString ip
  else sign ++ toString ip ++ "." ++ (fracDigits dp fp).asString

/-- Insert a row into a list sorted by ascending `code`. -/
def insertByCode (c : CurrencyConfig) : List CurrencyConfig → List CurrencyConfig
  | [] => [c]
  | d :: ds => if c.code ≤ d.code then c :: d :: ds else d :: insertByCode c ds

/-- Ascending sort by the `code` column, the effect of the supabase
`.order` clause of `getSupportedCurrencies`. -/
def sortByCode : List CurrencyConfig → List CurrencyConfig
  | [] => []
  | c :: cs => insertByCode c (sortByCode cs)

namespace CurrencyUtils

/-- `CurrencyUtils.getSupportedCurrencies`: the `currency_config` rows with
`is_active = true`, ordered by `code` (supabase `.order` is an ascending
sort). -/
def getSupportedCurrencies (configs : List CurrencyConfig) : List CurrencyConfig :=
  sortByCode (configs.filter (·.isActive))

/-- `CurrencyUtils.getBaseCurrency`: selects the rows with
`is_base_currency = true AND is_active = true` and applies supabase
`.single()`, which errors unless exactly one row is returned. -/
def getBaseCurrency (configs : List CurrencyConfig) : Except String CurrencyConfig :=
  match configs.filter fun c => c.isBaseCurrency && c.isActive with
  | [c] => .ok c
  | [] => .error "single: no rows returned"
  | _ => .error "single: multiple rows returned"

/-- `CurrencyUtils.getCurrentExchangeRate`: 1.0 for a same currency pair
(before any cache or database access); otherwise a read-through cache
lookup under the key `base ++ "_" ++ target` with TTL `CACHE_DURATION`,
falling back to the database function and caching its result.  The JS
coercion `data || 1.0` maps a rate of 0 to 1.  Returns the rate together
with the cache state after the call. -/
def getCurrentExchangeRate (rates : List ExchangeRate) (cache : RateCache)
    (baseCurrency targetCurrency : String) (now : Nat) : ℚ × RateCache :=
  if baseCurrency == targetCurrency then (1, cache)
  else
    let cacheKey := baseCurrency ++ "_" ++ targetCurrency
    let hit : Option ℚ :=
      match cacheLookup cache cacheKey with
      | some cached =>
        if now - cached.timestamp < CACHE_DURATION then some cached.rate else none
      | none => none
    match hit with
    | some r => (r, cache)
    | none =>
      let data := get_current_exchange_rate rates baseCurrency targetCurrency now
      let rate := if data == 0 then 1 else data
      (rate, cacheSet cache cacheKey ⟨rate, now⟩)

/-- `CurrencyUtils.convertCurrency`. -/
def convertCurrency (rates : List ExchangeRate) (cache : RateCache) (amount : ℚ)
    (fromCurrency toCurrency : String) (now : Nat) : CurrencyConversion × RateCache :=
  let res := getCurrentExchangeRate rates cache fromCurrency toCurrency now
  ({ originalAmount := amount
     convertedAmount := amount * res.1
     fromCurrency := fromCurrency
     toCurrency := toCurrency
     exchangeRate := res.1
     timestamp := now },
   res.2)

/-- `CurrencyUtils.formatCurrency`: look the code up among the supported
(active) currencies; unknown codes take the degraded
`code ++ " " ++ toFixed amount 2` path, known ones are rendered to
`decimalPlaces` with the symbol placed per `symbolPosition`. -/
def formatCurrency (configs : List CurrencyConfig) (amount : ℚ)
    (currencyCode : String) : String :=
  let currencies := getSupportedCurrencies configs
  match currencies.find? fun c => c.code == currencyCode with
  | none => currencyCode ++ " " ++ toFixed amount 2
  | some currency =>
    let formattedAmount := toFixed amount currency.decimalPlaces
    match currency.symbolPosition with
    | .before => currency.symbol ++ formattedAmount
    | .after => formattedAmount ++ " " ++ currency.symbol

/-- `CurrencyUtils.updateExchangeRate`: run the database function
`update_exchange_rate`, then delete the cache entry of the updated pair
(`cachedRates.delete(cacheKey)`). -/
def updateExchangeRate (s : RateStore) (cache : RateCache)
    (baseCurrency targetCurrency : String) (rate : ℚ) (source : String)
    (isManualOverride : Bool) (now : Nat) : RateStore × RateCache :=
  (update_exchange_rate s baseCurrency targetCurrency rate source isManualOverride now,
   cacheDelete cache (baseCurrency ++ "_" ++ targetCurrency))

end CurrencyUtils

/-!
Discount evaluation core.  The repository ships only the type
declarations of this subsystem (`Discount`, `DiscountCondition`,
`CartItem`, `AppliedDiscount`, `Sale` in the shared types module); the
evaluation and pricing code itself is not among the source files, so
the functions below are modelled from the specification (sections 4.5
and 4.6), as the doc comments state.
-/

inductive DiscountType where
  | percentage
  | fixed
  | bogo
  | free_gift
  deriving Repr, DecidableEq

inductive ConditionType where
  | min_amount
  | specific_products
  | payment_method
  | customer_tier
  | card_type
  | bank_name
  deriving Repr, DecidableEq

inductive ConditionOperator where
  | equals
  | greater_than
  | less_than
  | in_array
  deriving Repr, DecidableEq

/-- The `value` field of a `DiscountCondition` (typed `any` in the
declaration): a number, a string, or a string list. -/
inductive ConditionValue where
  | num (q : ℚ)
  | str (s : String)
  | strs (ss : List String)
  deriving Repr, DecidableEq

/-- The `DiscountCondition` interface of the shared types module. -/
structure DiscountCondition where
  type : ConditionType
  value : ConditionValue
  operator : Option ConditionOperator
  minQuantity : Option ℚ
  deriving Repr, DecidableEq

/-- A cart line: product reference, unit price in base currency and a
quantity (a weight for weight-based products). -/
structure CartLine where
  productRef : String
  unitPrice : ℚ
  quantity : ℚ
  deriving Repr, DecidableEq

/-- Modelled from the spec: the cart/customer/payment snapshot a
condition is evaluated against.  The four string fields are optional:
a cash sale carries no card details, an anonymous sale no customer
tier. -/
structure CartContext where
  lines : List CartLine
  paymentMethod : Option String
  customerTier : Option String
  cardType : Option String
  bankName : Option String
  deriving Repr, DecidableEq

/-- Raw pre-discount subtotal: quantity times unit price summed over the
cart lines. -/
def cartSubtotal (ctx : CartContext) : ℚ :=
  (ctx.lines.map fun l => l.unitPrice * l.quantity).sum

/-- Total units in the cart across a referenced product set. -/
def matchedUnits (ctx : CartContext) (ps : List String) : ℚ :=
  ((ctx.lines.filter fun l => ps.contains l.productRef).map (·.quantity)).sum

/-- The context field a field-comparison condition type refers to
(`none` for the two structural condition types). -/
def contextField (ctx : CartContext) : ConditionType → Option String
  | .payment_method => ctx.paymentMethod
  | .customer_tier => ctx.customerTier
  | .card_type => ctx.cardType
  | .bank_name => ctx.bankName
  | _ => none

/-- Modelled from the spec: operator-directed comparison of a context
field against a condition value (`equals` by default). -/
def compareField : ConditionOperator → String → ConditionValue → Bool
  | .equals, f, .str s => f == s
  | .in_array, f, .strs ss => ss.contains f
  | .greater_than, f, .str s => decide (s < f)
  | .less_than, f, .str s => decide (f < s)
  | _, _, _ => false

/-- Modelled from the spec: `matches(condition, cartContext)` of the
DiscountConditionEvaluator, whose implementation is not among the
source files.  `min_amount` compares the pre-discount subtotal,
`specific_products` the matched unit count against `minQuantity`
(default 1); the four field types compare the corresponding context
field and evaluate to `false` when that field is absent. -/
def conditionMatches (c : DiscountCondition) (ctx : CartContext) : Bool :=
  match c.type with
  | .min_amount =>
    match c.value with
    | .num q => decide (q ≤ cartSubtotal ctx)
    | _ => false
  | .specific_products =>
    match c.value with
    | .strs ps => decide (c.minQuantity.getD 1 ≤ matchedUnits ctx ps)
    | _ => false
  | t =>
    match contextField ctx t with
    | none => false
    | some f => compareField (c.operator.getD .equals) f c.value

/-- The `Discount` interface of the shared types module. -/
structure Discount where
  id : String
  name : String
  type : DiscountType
  value : ℚ
  conditions : List DiscountCondition
  freeGiftProducts : List String
  minAmount : Option ℚ
  maxDiscount : Option ℚ
  validFrom : Nat
  validTo : Nat
  validDays : Option (List Nat)
  active : Bool
  deriving Repr, DecidableEq

/-- Modelled from the spec: a discount applies only if every one of its
conditions evaluates true (logical AND over the condition list). -/
def discountApplies (d : Discount) (ctx : CartContext) : Bool :=
  d.conditions.all fun c => conditionMatches c ctx

/-- The `AppliedDiscount` interface of the shared types module. -/
structure AppliedDiscount where
  discountId : String
  discountName : String
  discountAmount : ℚ
  type : DiscountType
  deriving Repr, DecidableEq

/-- Modelled from the spec: the engine output snapshot
(`PricedCartSnapshot`), matching the priced fields of the `Sale`
interface. -/
structure PricedCartSnapshot where
  subtotal : ℚ
  discountAmount : ℚ
  taxAmount : ℚ
  total : ℚ
  appliedDiscounts : List AppliedDiscount
  freeGifts : List CartLine
  deriving Repr, DecidableEq

/-- Modelled from the spec: applicability window filter — `active`,
`[validFrom, validTo]` containing the current instant, and `validDays`
(when present) containing the current weekday. -/
def inApplicabilityWindow (d : Discount) (now weekday : Nat) : Bool :=
  d.active && decide (d.validFrom ≤ now) && decide (now ≤ d.validTo) &&
    (match d.validDays with
     | none => true
     | some days => days.contains weekday)

/-- Modelled from the spec: BOGO contribution — over the matched
specific-product lines of the first `specific_products` condition, each
group of `N` units (`N` from `minQuantity`, default 1) yields one unit
discounted at 100%, with no partial discount for a remainder. -/
def bogoAmount (d : Discount) (ctx : CartContext) : ℚ :=
  match d.conditions.find? fun c => c.type == ConditionType.specific_products with
  | some c =>
    match c.value with
    | .strs ps =>
      let n := c.minQuantity.getD 1
      ((ctx.lines.filter fun l => ps.contains l.productRef).map
        fun l => ((⌊l.quantity / n⌋ : ℤ) : ℚ) * l.unitPrice).sum
    | _ => 0
  | none => 0

/-- Modelled from the spec: the amount one surviving discount
contributes, together with any free-gift lines it adds.  `percentage`
is capped at `maxDiscount` when set and at the subtotal itself;
`fixed` at the remaining subtotal; `free_gift` adds zero-price lines
without reducing the discount amount. -/
def discountContribution (subtotal remaining : ℚ) (d : Discount) (ctx : CartContext) :
    ℚ × List CartLine :=
  match d.type with
  | .percentage =>
    let a := subtotal * d.value / 100
    let a := match d.maxDiscount with | some m => min a m | none => a
    (min a subtotal, [])
  | .fixed => (min d.value remaining, [])
  | .bogo => (bogoAmount d ctx, [])
  | .free_gift =>
    (0, d.freeGiftProducts.map fun p => { productRef := p, unitPrice := 0, quantity := 1 })

/-- Modelled from the spec: `DiscountEngine.price`.  Rejects a
structurally invalid cart (no lines, a negative quantity); filters the
discounts by applicability window, condition match against the
pre-discount subtotal, and the redundant `minAmount` check; folds the
survivors in declaration order accumulating discount amounts, applied
records and free gifts; computes tax on the post-discount subtotal at
the percent tax rate; and floors the total at zero. -/
def price (ctx : CartContext) (discounts : List Discount) (now weekday : Nat)
    (taxRate : ℚ) : Except String PricedCartSnapshot :=
  if ctx.lines.isEmpty then .error "invalid cart: no lines"
  else if ctx.lines.any fun l => decide (l.quantity < 0) then
    .error "invalid cart: negative quantity"
  else
    let subtotal := cartSubtotal ctx
    let eligible := discounts.filter fun d =>
      inApplicabilityWindow d now weekday && discountApplies d ctx &&
        (match d.minAmount with
         | some m => decide (m ≤ subtotal)
         | none => true)
    let folded := eligible.foldl
      (fun (acc : ℚ × List AppliedDiscount × List CartLine) d =>
        let contrib := discountContribution subtotal (subtotal - acc.1) d ctx
        let applied :=
          if contrib.1 != 0 || !contrib.2.isEmpty then
            acc.2.1 ++ [{ discountId := d.id, discountName := d.name
                          discountAmount := contrib.1, type := d.type }]
          else acc.2.1
        (acc.1 + contrib.1, applied, acc.2.2 ++ contrib.2))
      (0, [], [])
    let discountAmount := folded.1
    let taxAmount := (subtotal - discountAmount) * taxRate / 100
    .ok { subtotal := subtotal
          discountAmount := discountAmount
          taxAmount := taxAmount
          total := max 0 (subtotal - discountAmount + taxAmount)
          appliedDiscounts := folded.2.1
          freeGifts := folded.2.2 }

/-- A concrete active USD to EUR row used by concrete instantiations. -/
def usdEurRow : ExchangeRate :=
  { baseCurrency := "USD", targetCurrency := "EUR", rate := 17/20,
    source := "api", isManualOverride := false,
    effectiveFrom := 0, effectiveTo := none }

/-- A concrete active base-currency configuration row. -/
def usdConfig : CurrencyConfig :=
  { code := "USD", name := "US Dollar", symbol := "$",
    symbolPosition := .before, decimalPlaces := 2,
    isActive := true, isBaseCurrency := true }

/-- A concrete active row with the symbol placed after the amount. -/
def chfConfig : CurrencyConfig :=
  { code := "CHF", name := "Swiss Franc", symbol := "CHF",
    symbolPosition := .after, decimalPlaces := 2,
    isActive := true, isBaseCurrency := false }

/-- A concrete inactive configuration row. -/
def inactiveLkrConfig : CurrencyConfig :=
  { code := "LKR", name := "Sri Lankan Rupee", symbol := "Rs",
    symbolPosition := .before, decimalPlaces := 2,
    isActive := false, isBaseCurrency := false }

/-! Helper lemmas about the closing UPDATE and the active-row counts. -/

theorem closeOne_not_null (base target : String) (now : Nat) (r : ExchangeRate) :
    ((closeOne base target now r).baseCurrency == base &&
      (closeOne base target now r).targetCurrency == target &&
      (closeOne base target now r).effectiveTo.isNone) = false := by
  unfold closeOne
  cases hc : (r.baseCurrency == base && r.targetCurrency == target && isActiveAt now r) with
  | true => simp [hc]
  | false =>
    simp only [hc, Bool.false_eq_true, if_false]
    cases he : r.effectiveTo with
    | some u => simp [he]
    | none =>
      have hbt : (r.baseCurrency == base && r.targetCurrency == target) = false := by
        simpa [isActiveAt, he] using hc
      simpa [he] using hbt

theorem closeOne_pred_frame (base target b t : String) (now : Nat) (r : ExchangeRate)
    (h : ¬(base = b ∧ target = t)) :
    ((closeOne base target now r).baseCurrency == b &&
      (closeOne base target now r).targetCurrency == t &&
      (closeOne base target now r).effectiveTo.isNone) =
    (r.baseCurrency == b && r.targetCurrency == t && r.effectiveTo.isNone) := by
  unfold closeOne
  cases hc : (r.baseCurrency == base && r.targetCurrency == target && isActiveAt now r) with
  | false => simp [hc]
  | true =>
    have hparts := hc
    simp only [Bool.and_eq_true, beq_iff_eq] at hparts
    obtain ⟨⟨hb, ht⟩, -⟩ := hparts
    rcases not_and_or.mp h with hne | hne
    · have hbf : (r.baseCurrency == b) = false := by
        rw [hb]; exact beq_eq_false_iff_ne.mpr hne
      simp [hc, hbf]
    · have htf : (r.targetCurrency == t) = false := by
        rw [ht]; exact beq_eq_false_iff_ne.mpr hne
      simp [hc, htf]

theorem countNullFor_append (l1 l2 : List ExchangeRate) (b t : String) :
    countNullFor (l1 ++ l2) b t = countNullFor l1 b t + countNullFor l2 b t := by
  simp [countNullFor, List.countP_append]

theorem countNullFor_closeActive_self (rates : List ExchangeRate) (b t : String)
    (now : Nat) :
    countNullFor (closeActive rates b t now) b t = 0 := by
  unfold countNullFor closeActive
  rw [List.countP_map, List.countP_eq_zero]
  intro r _
  simp only [Function.comp_apply, Bool.not_eq_true]
  exact closeOne_not_null b t now r

theorem countNullFor_closeActive_frame (rates : List ExchangeRate)
    (base target b t : String) (now : Nat) (h : ¬(base = b ∧ target = t)) :
    countNullFor (closeActive rates base target now) b t = countNullFor rates b t := by
  unfold countNullFor closeActive
  rw [List.countP_map]
  apply List.countP_congr
  intro r _
  simp only [Function.comp_apply]
  rw [closeOne_pred_frame base target b t now r h]

theorem countNullFor_update (s : RateStore) (base target b t : String) (rate : ℚ)
    (src : String) (m : Bool) (now : Nat) :
    countNullFor (update_exchange_rate s base target rate src m now).rates b t =
      if base = b ∧ target = t then 1 else countNullFor s.rates b t := by
  unfold update_exchange_rate
  simp only
  rw [countNullFor_append]
  by_cases h : base = b ∧ target = t
  · obtain ⟨hb, ht⟩ := h
    subst hb; subst ht
    rw [countNullFor_closeActive_self]
    simp [countNullFor, List.countP_cons]
  · rw [countNullFor_closeActive_frame _ _ _ _ _ _ h, if_neg h]
    rcases not_and_or.mp h with hne | hne
    · have hbf : (base == b) = false := beq_eq_false_iff_ne.mpr hne
      simp [countNullFor, List.countP_cons, hbf]
    · have htf : (target == t) = false := beq_eq_false_iff_ne.mpr hne
      simp [countNullFor, List.countP_cons, htf]

theorem countNullFor_runUpdates_le (ops : List UpdateOp) (s : RateStore)
    (h : ∀ b t, countNullFor s.rates b t ≤ 1) (b t : String) :
    countNullFor (runUpdates s ops).rates b t ≤ 1 := by
  induction ops generalizing s with
  | nil => exact h b t
  | cons op ops ih =>
    show countNullFor (runUpdates (applyOp s op) ops).rates b t ≤ 1
    apply ih
    intro b' t'
    rw [applyOp, countNullFor_update]
    split
    · exact le_refl 1
    · exact h b' t'

/-- Claim C1: supersession invariant of the store update.  Starting from
an empty store, after any sequence of `update_exchange_rate` calls, at
most one `exchange_rates` row per (base, target) pair has
`effective_to = NULL`; and after two sequential updates of (USD, EUR)
with rates `r1` then `r2` (with `r1 > 0`), exactly one (USD, EUR) row is
active and the history holds exactly two entries, the second with
`previousRate = r1` and `changePercentage = (r2 - r1) / r1 * 100`. -/
theorem supersession_invariant :
    (∀ (ops : List UpdateOp) (b t : String),
      countNullFor (runUpdates emptyStore ops).rates b t ≤ 1) ∧
    (∀ (r1 r2 : ℚ) (src1 src2 : String) (m1 m2 : Bool) (t1 t2 : Nat), 0 < r1 →
      countNullFor
        (update_exchange_rate
          (update_exchange_rate emptyStore "USD" "EUR" r1 src1 m1 t1)
          "USD" "EUR" r2 src2 m2 t2).rates "USD" "EUR" = 1 ∧
      (update_exchange_rate
        (update_exchange_rate emptyStore "USD" "EUR" r1 src1 m1 t1)
        "USD" "EUR" r2 src2 m2 t2).history =
        [{ baseCurrency := "USD", targetCurrency := "EUR", rate := r1,
           previousRate := none, changePercentage := none,
           source := src1, isManualOverride := m1, recordedAt := t1 },
         { baseCurrency := "USD", targetCurrency := "EUR", rate := r2,
           previousRate := some r1,
           changePercentage := some ((r2 - r1) / r1 * 100),
           source := src2, isManualOverride := m2, recordedAt := t2 }]) := by
  constructor
  · intro ops b t
    apply countNullFor_runUpdates_le
    intro b' t'
    simp [countNullFor, emptyStore]
  · intro r1 r2 src1 src2 m1 m2 t1 t2 hr1
    constructor
    · simp [update_exchange_rate, emptyStore, activeRecords, mostRecentRecord,
        closeActive, closeOne, isActiveAt, countNullFor, List.countP_cons]
    · simp [update_exchange_rate, emptyStore, activeRecords, mostRecentRecord,
        closeActive, closeOne, isActiveAt, hr1]

/-- Witness for the supersession invariant at a concrete update sequence. -/
theorem supersession_invariant_witness :
    countNullFor (runUpdates emptyStore
      [{ base := "USD", target := "EUR", rate := 17/20, source := "api",
         isManualOverride := false, time := 0 }]).rates "USD" "EUR" ≤ 1 ∧
    (0 : ℚ) < 17/20 ∧
    countNullFor
      (update_exchange_rate
        (update_exchange_rate emptyStore "USD" "EUR" (17/20) "api" false 0)
        "USD" "EUR" (9/10) "manual" true 1).rates "USD" "EUR" = 1 :=
  ⟨supersession_invariant.1 _ "USD" "EUR",
   by norm_num,
   (supersession_invariant.2 (17/20) (9/10) "api" "manual" false true 0 1
     (by norm_num)).1⟩

/-- Claim C2: bidirectional fallback of the rate lookup.  For distinct
codes, the lookup returns the rate of the single active direct record
when one exists; with no direct record it returns the reciprocal of the
single active reverse record; with neither it returns the 1.0 fallback
(the function is total: it never throws); and concretely, after
`update_exchange_rate` stores USD to EUR at 0.85 in an empty store, the
EUR to USD lookup returns 1 / 0.85 = 20 / 17. -/
theorem bidirectional_fallback (rates : List ExchangeRate) (base target : String)
    (now : Nat) (hbt : base ≠ target) :
    (∀ r, activeRecords rates base target now = [r] →
      get_current_exchange_rate rates base target now = r.rate) ∧
    (∀ r, activeRecords rates base target now = [] →
      activeRecords rates target base now = [r] →
      get_current_exchange_rate rates base target now = 1 / r.rate) ∧
    (activeRecords rates base target now = [] →
      activeRecords rates target base now = [] →
      get_current_exchange_rate rates base target now = 1) ∧
    (∀ (t1 t2 : Nat),
      get_current_exchange_rate
        (update_exchange_rate emptyStore "USD" "EUR" (17/20) "api" false t1).rates
        "EUR" "USD" t2 = 20/17) := by
  have hbeq : (base == target) = false := beq_eq_false_iff_ne.mpr hbt
  refine ⟨?_, ?_, ?_, ?_⟩
  · intro r hr
    simp [get_current_exchange_rate, hbeq, hr, mostRecentRecord]
  · intro r h1 h2
    simp [get_current_exchange_rate, hbeq, h1, h2, mostRecentRecord]
  · intro h1 h2
    simp [get_current_exchange_rate, hbeq, h1, h2, mostRecentRecord]
  · intro t1 t2
    simp [update_exchange_rate, emptyStore, closeActive, get_current_exchange_rate,
      activeRecords, isActiveAt, mostRecentRecord]

/-- Witness for the bidirectional fallback at a concrete store: one
active USD to EUR record, looked up directly, in reverse, and for an
absent pair. -/
theorem bidirectional_fallback_witness :
    get_current_exchange_rate [usdEurRow] "USD" "EUR" 5 = 17/20 ∧
    get_current_exchange_rate [usdEurRow] "EUR" "USD" 5 = 20/17 ∧
    get_current_exchange_rate [] "GBP" "JPY" 5 = 1 := by
  refine ⟨?_, ?_, ?_⟩
  · exact (bidirectional_fallback [usdEurRow] "USD" "EUR" 5 (by decide)).1
      usdEurRow rfl
  · have h := (bidirectional_fallback [usdEurRow] "EUR" "USD" 5 (by decide)).2.1
      usdEurRow rfl rfl
    rw [h]
    norm_num [usdEurRow]
  · exact (bidirectional_fallback [] "GBP" "JPY" 5 (by decide)).2.2.1 rfl rfl

/-- Claim C3: same-currency identity.  For every code X the rate lookup
returns 1.0 immediately (at both the database and the cached TS layer,
leaving the cache untouched), and converting any amount from X to X
returns the amount unchanged. -/
theorem same_currency_identity (rates : List ExchangeRate) (cache : RateCache)
    (x : String) (now : Nat) (a : ℚ) :
    get_current_exchange_rate rates x x now = 1 ∧
    CurrencyUtils.getCurrentExchangeRate rates cache x x now = (1, cache) ∧
    (CurrencyUtils.convertCurrency rates cache a x x now).1.convertedAmount = a := by
  refine ⟨?_, ?_, ?_⟩ <;>
    simp [get_current_exchange_rate, CurrencyUtils.getCurrentExchangeRate,
      CurrencyUtils.convertCurrency]

/-! Helper lemmas about the insertion sort by currency code. -/

theorem insertByCode_perm (c : CurrencyConfig) (l : List CurrencyConfig) :
    (insertByCode c l).Perm (c :: l) := by
  induction l with
  | nil => exact List.Perm.refl _
  | cons d ds ih =>
    unfold insertByCode
    split
    · exact List.Perm.refl _
    · exact (ih.cons d).trans (List.Perm.swap c d ds)

theorem insertByCode_pairwise (c : CurrencyConfig) (l : List CurrencyConfig)
    (h : l.Pairwise fun a b => a.code ≤ b.code) :
    (insertByCode c l).Pairwise fun a b => a.code ≤ b.code := by
  induction l with
  | nil => simp [insertByCode]
  | cons d ds ih =>
    rcases h with - | ⟨hd, hds⟩
    unfold insertByCode
    split
    case isTrue hle =>
      refine List.Pairwise.cons ?_ (List.Pairwise.cons hd hds)
      intro b hb
      rcases List.mem_cons.mp hb with hb | hb
      · exact hb ▸ hle
      · exact le_trans hle (hd b hb)
    case isFalse hgt =>
      refine List.Pairwise.cons ?_ (ih hds)
      intro b hb
      rcases List.mem_cons.mp ((insertByCode_perm c ds).mem_iff.mp hb) with hb | hb
      · exact hb ▸ le_of_not_le hgt
      · exact hd b hb

theorem sortByCode_pairwise (l : List CurrencyConfig) :
    (sortByCode l).Pairwise fun a b => a.code ≤ b.code := by
  induction l with
  | nil => simp [sortByCode]
  | cons c cs ih => exact insertByCode_pairwise c (sortByCode cs) ih

theorem sortByCode_perm (l : List CurrencyConfig) : (sortByCode l).Perm l := by
  induction l with
  | nil => exact List.Perm.refl _
  | cons c cs ih => exact (insertByCode_perm c (sortByCode cs)).trans (ih.cons c)

/-- Claim C6 counterexample: `getSupportedCurrencies` on a configuration
whose active set is empty returns the empty sequence successfully.  The
source throws only when the database reports an error; no
ConfigurationError (or any other failure) is raised for an empty active
set. -/
theorem listActive_empty_counterexample :
    CurrencyUtils.getSupportedCurrencies [inactiveLkrConfig] = [] := rfl

/-- Claim C6 (amended): `getSupportedCurrencies` returns exactly the
active configuration rows ordered by code; when no active row exists it
returns the empty sequence without error. -/
theorem listActive_ordered (configs : List CurrencyConfig) :
    ((CurrencyUtils.getSupportedCurrencies configs).Pairwise
      fun a b => a.code ≤ b.code) ∧
    (CurrencyUtils.getSupportedCurrencies configs).Perm
      (configs.filter (·.isActive)) ∧
    (configs.filter (·.isActive) = [] →
      CurrencyUtils.getSupportedCurrencies configs = []) := by
  refine ⟨sortByCode_pairwise _, sortByCode_perm _, ?_⟩
  intro h
  unfold CurrencyUtils.getSupportedCurrencies
  rw [h]
  rfl

/-- Witness for the amended listing claim at a concrete configuration
with no active rows. -/
theorem listActive_ordered_witness :
    ((CurrencyUtils.getSupportedCurrencies [inactiveLkrConfig]).Pairwise
      fun a b => a.code ≤ b.code) ∧
    CurrencyUtils.getSupportedCurrencies [inactiveLkrConfig] = [] :=
  ⟨(listActive_ordered [inactiveLkrConfig]).1,
   (listActive_ordered [inactiveLkrConfig]).2.2 rfl⟩

/-- Claim C7: `getBaseCurrency` (supabase `.single()` over the rows with
`is_base_currency = true AND is_active = true`) errors when no such row
exists, errors when more than one exists, and returns the row exactly
when it is unique. -/
theorem base_currency_unique (configs : List CurrencyConfig) :
    (configs.filter (fun c => c.isBaseCurrency && c.isActive) = [] →
      ∃ e, CurrencyUtils.getBaseCurrency configs = .error e) ∧
    (∀ c1 c2 rest,
      configs.filter (fun c => c.isBaseCurrency && c.isActive) = c1 :: c2 :: rest →
      ∃ e, CurrencyUtils.getBaseCurrency configs = .error e) ∧
    (∀ c, configs.filter (fun c => c.isBaseCurrency && c.isActive) = [c] →
      CurrencyUtils.getBaseCurrency configs = .ok c) := by
  refine ⟨?_, ?_, ?_⟩
  · intro h
    refine ⟨"single: no rows returned", ?_⟩
    unfold CurrencyUtils.getBaseCurrency
    rw [h]
  · intro c1 c2 rest h
    refine ⟨"single: multiple rows returned", ?_⟩
    unfold CurrencyUtils.getBaseCurrency
    rw [h]
  · intro c h
    unfold CurrencyUtils.getBaseCurrency
    rw [h]

/-- Witness for the base-currency contract: a unique active base row is
returned, an all-secondary configuration errors, and a duplicated base
row errors. -/
theorem base_currency_unique_witness :
    CurrencyUtils.getBaseCurrency [usdConfig, chfConfig] = .ok usdConfig ∧
    (∃ e, CurrencyUtils.getBaseCurrency [chfConfig] = Except.error e) ∧
    (∃ e, CurrencyUtils.getBaseCurrency [usdConfig, usdConfig] = Except.error e) :=
  ⟨(base_currency_unique [usdConfig, chfConfig]).2.2 usdConfig rfl,
   (base_currency_unique [chfConfig]).1 rfl,
   (base_currency_unique [usdConfig, usdConfig]).2.1 usdConfig usdConfig [] rfl⟩

/-! Helper lemmas about the fixed-point digit rendering. -/

theorem fracDigits_length (dp : Nat) : ∀ n, (fracDigits dp n).length = dp := by
  induction dp with
  | zero => intro n; rfl
  | succ d ih => intro n; simp [fracDigits, ih]

theorem digitChar_ne_dot (n : Nat) : digitChar n ≠ '.' := by
  unfold digitChar
  have h : n % 10 < 10 := Nat.mod_lt _ (by norm_num)
  revert h
  generalize n % 10 = k
  intro h
  interval_cases k <;> decide

theorem fracDigits_no_dot (dp : Nat) : ∀ n, ∀ ch ∈ fracDigits dp n, ch ≠ '.' := by
  induction dp with
  | zero => intro n ch h; cases h
  | succ d ih =>
    intro n ch h
    simp only [fracDigits, List.mem_cons] at h
    rcases h with h | h
    · exact h ▸ digitChar_ne_dot _
    · exact ih _ ch h

/-- Claim C8: `formatCurrency` places the symbol before the amount (no
separator) for `symbolPosition = before`, renders the amount followed by
the symbol for `symbolPosition = after`, and falls back to the degraded
non-failing string `code ++ " " ++ toFixed amount 2` for a code not
among the supported currencies; a known code is rendered to exactly
`decimalPlaces` digits after the decimal point. -/
theorem format_respects_position (configs : List CurrencyConfig) (amount : ℚ)
    (code : String) :
    (∀ cur, (CurrencyUtils.getSupportedCurrencies configs).find?
        (fun c => c.code == code) = some cur →
      CurrencyUtils.formatCurrency configs amount code =
        match cur.symbolPosition with
        | .before => cur.symbol ++ toFixed amount cur.decimalPlaces
        | .after => toFixed amount cur.decimalPlaces ++ " " ++ cur.symbol) ∧
    ((CurrencyUtils.getSupportedCurrencies configs).find?
        (fun c => c.code == code) = none →
      CurrencyUtils.formatCurrency configs amount code =
        code ++ " " ++ toFixed amount 2) ∧
    (∀ (q : ℚ) (dp : Nat), 0 < dp →
      ∃ (pre : String) (digits : List Char),
        toFixed q dp = pre ++ "." ++ digits.asString ∧
        digits.length = dp ∧ ∀ ch ∈ digits, ch ≠ '.') := by
  refine ⟨?_, ?_, ?_⟩
  · intro cur h
    simp only [CurrencyUtils.formatCurrency, h]
  · intro h
    simp only [CurrencyUtils.formatCurrency, h]
  · intro q dp hdp
    have hdp0 : ¬ dp = 0 := Nat.pos_iff_ne_zero.mp hdp
    refine ⟨(if q < 0 then "-" else "") ++
        toString ((round (|q| * (10 : ℚ) ^ dp)).toNat / 10 ^ dp),
      fracDigits dp ((round (|q| * (10 : ℚ) ^ dp)).toNat % 10 ^ dp),
      ?_, fracDigits_length dp _, fracDigits_no_dot dp _⟩
    simp only [toFixed]
    rw [if_neg hdp0]

/-- Witness for the formatting contract on a concrete registry: a known
before-symbol currency, an unknown code, and the two-digit rendering. -/
theorem format_respects_position_witness :
    CurrencyUtils.formatCurrency [usdConfig, chfConfig] (3/2) "USD" =
      (match usdConfig.symbolPosition with
       | .before => usdConfig.symbol ++ toFixed (3/2) usdConfig.decimalPlaces
       | .after => toFixed (3/2) usdConfig.decimalPlaces ++ " " ++ usdConfig.symbol) ∧
    CurrencyUtils.formatCurrency [usdConfig, chfConfig] (3/2) "XYZ" =
      "XYZ" ++ " " ++ toFixed (3/2) 2 ∧
    (∃ (pre : String) (digits : List Char),
      toFixed (3/2) 2 = pre ++ "." ++ digits.asString ∧
      digits.length = 2 ∧ ∀ ch ∈ digits, ch ≠ '.') :=
  ⟨(format_respects_position [usdConfig, chfConfig] (3/2) "USD").1 usdConfig
     (by simp [CurrencyUtils.getSupportedCurrencies, sortByCode, insertByCode,
       usdConfig, chfConfig, List.find?]),
   (format_respects_position [usdConfig, chfConfig] (3/2) "XYZ").2.1
     (by simp [CurrencyUtils.getSupportedCurrencies, sortByCode, insertByCode,
       usdConfig, chfConfig, List.find?]),
   (format_respects_position [usdConfig, chfConfig] (3/2) "XYZ").2.2 (3/2) 2
     (by norm_num)⟩

/-- Claim C4: non-negative total.  Modelled from the spec (the pricing
engine implementation is not among the source files): for every
structurally valid cart and any set of discounts, the priced snapshot
satisfies `total ≥ 0`, the total being `subtotal - discountAmount +
taxAmount` floored at zero with tax computed on the post-discount
subtotal. -/
theorem priced_total_nonneg (ctx : CartContext) (discounts : List Discount)
    (now weekday : Nat) (taxRate : ℚ) (snap : PricedCartSnapshot)
    (h : price ctx discounts now weekday taxRate = .ok snap) : 0 ≤ snap.total := by
  unfold price at h
  split at h
  · exact absurd h (by simp)
  · split at h
    · exact absurd h (by simp)
    · simp only [Except.ok.injEq] at h
      subst h
      exact le_max_left 0 _

/-- Witness for the non-negative total at a concrete one-line cart with
no discounts and a zero tax rate. -/
theorem priced_total_nonneg_witness :
    (0 : ℚ) ≤ (PricedCartSnapshot.mk 150 0 0 150 [] []).total :=
  priced_total_nonneg
    { lines := [{ productRef := "P", unitPrice := 150, quantity := 1 }],
      paymentMethod := none, customerTier := none,
      cardType := none, bankName := none }
    [] 0 0 0 _ (by norm_num [price, cartSubtotal])

/-- Claim C9: discount condition evaluation.  Modelled from the spec
(the evaluator implementation is not among the source files): a
discount applies exactly when every one of its conditions evaluates
true (logical AND over the condition list), and a field-comparison
condition whose referenced cart/customer/payment field is absent from
the context evaluates to false — absence is never a wildcard match. -/
theorem conditions_and_absence :
    (∀ (d : Discount) (ctx : CartContext),
      discountApplies d ctx = true ↔
        ∀ c ∈ d.conditions, conditionMatches c ctx = true) ∧
    (∀ (c : DiscountCondition) (ctx : CartContext),
      (c.type = ConditionType.payment_method ∨
       c.type = ConditionType.customer_tier ∨
       c.type = ConditionType.card_type ∨
       c.type = ConditionType.bank_name) →
      contextField ctx c.type = none → conditionMatches c ctx = false) := by
  constructor
  · intro d ctx
    simp [discountApplies, List.all_eq_true]
  · intro c ctx hty habsent
    rcases hty with h | h | h | h <;>
      (rw [h] at habsent; simp [conditionMatches, h, habsent])

/-- Witness for condition evaluation: a `card_type` condition on a cash
sale without card details evaluates to false. -/
theorem conditions_and_absence_witness :
    conditionMatches
      { type := ConditionType.card_type, value := ConditionValue.str "visa",
        operator := none, minQuantity := none }
      { lines := [{ productRef := "P1", unitPrice := 10, quantity := 1 }],
        paymentMethod := some "cash", customerTier := none,
        cardType := none, bankName := none } = false :=
  conditions_and_absence.2 _ _ (Or.inr (Or.inr (Or.inl rfl))) rfl

/-! Helper lemmas about the rate cache and the post-update lookup. -/

theorem cacheLookup_cacheDelete_self (c : RateCache) (k : String) :
    cacheLookup (cacheDelete c k) k = none := by
  induction c with
  | nil => rfl
  | cons p ps ih =>
    by_cases hpk : p.1 = k
    · simp only [cacheDelete, List.filter_cons, hpk] at ih ⊢
      simpa using ih
    · simp only [cacheDelete, List.filter_cons] at ih ⊢
      have hne : (p.1 != k) = true := by simp [hpk]
      rw [hne]
      simp only [if_true]
      simp only [cacheLookup, List.find?_cons] at ih ⊢
      have hbeq : (p.1 == k) = false := beq_eq_false_iff_ne.mpr hpk
      rw [hbeq]
      exact ih

theorem cacheLookup_cacheDelete_ne (c : RateCache) (k q : String) (h : q ≠ k) :
    cacheLookup (cacheDelete c k) q = cacheLookup c q := by
  induction c with
  | nil => rfl
  | cons p ps ih =>
    by_cases hpk : p.1 = k
    · have hpq : (p.1 == q) = false := by
        rw [hpk]
        exact beq_eq_false_iff_ne.mpr fun hh => h hh.symm
      simp only [cacheDelete, List.filter_cons] at ih ⊢
      have hk : (p.1 != k) = false := by simp [hpk]
      rw [hk]
      simp only [Bool.false_eq_true, if_false]
      rw [ih]
      simp only [cacheLookup, List.find?_cons, hpq]
    · simp only [cacheDelete, List.filter_cons] at ih ⊢
      have hk : (p.1 != k) = true := by simp [hpk]
      rw [hk]
      simp only [if_true, cacheLookup, List.find?_cons]
      cases hpq : (p.1 == q) with
      | true => rfl
      | false => exact ih

theorem closeOne_not_active_later (b t : String) (now now' : Nat) (hnn : now ≤ now')
    (r : ExchangeRate) :
    ((closeOne b t now r).baseCurrency == b &&
      (closeOne b t now r).targetCurrency == t &&
      isActiveAt now' (closeOne b t now r)) = false := by
  unfold closeOne
  cases hc : (r.baseCurrency == b && r.targetCurrency == t && isActiveAt now r) with
  | true =>
    have hact : isActiveAt now' { r with effectiveTo := some now } = false := by
      simp only [isActiveAt, decide_eq_false_iff_not]
      omega
    simp [hc, hact]
  | false =>
    simp only [hc, Bool.false_eq_true, if_false]
    cases he : r.effectiveTo with
    | none =>
      have hbt : (r.baseCurrency == b && r.targetCurrency == t) = false := by
        simpa [isActiveAt, he] using hc
      simp [isActiveAt, he, hbt]
    | some u =>
      by_cases hu : now < u
      · have hbt : (r.baseCurrency == b && r.targetCurrency == t) = false := by
          simpa [isActiveAt, he, hu] using hc
        simp [hbt]
      · have hact : isActiveAt now' r = false := by
          simp only [isActiveAt, he, decide_eq_false_iff_not]
          omega
        simp [hact]

theorem activeRecords_after_update (s : RateStore) (b t : String) (r : ℚ)
    (src : String) (m : Bool) (now now' : Nat) (hnn : now ≤ now') :
    activeRecords (update_exchange_rate s b t r src m now).rates b t now' =
      [{ baseCurrency := b, targetCurrency := t, rate := r, source := src,
         isManualOverride := m, effectiveFrom := now, effectiveTo := none }] := by
  unfold update_exchange_rate activeRecords
  simp only
  rw [List.filter_append]
  have h1 : (closeActive s.rates b t now).filter
      (fun rr => rr.baseCurrency == b && rr.targetCurrency == t && isActiveAt now' rr) =
      [] := by
    rw [List.filter_eq_nil_iff]
    intro a ha
    obtain ⟨r0, _, rfl⟩ := List.mem_map.mp ha
    simp only [Bool.not_eq_true]
    exact closeOne_not_active_later b t now now' hnn r0
  rw [h1]
  simp [isActiveAt]

theorem get_rate_after_update (s : RateStore) (b t : String) (r : ℚ) (src : String)
    (m : Bool) (now now' : Nat) (hbt : b ≠ t) (hnn : now ≤ now') :
    get_current_exchange_rate (update_exchange_rate s b t r src m now).rates
      b t now' = r := by
  have hbeq : (b == t) = false := beq_eq_false_iff_ne.mpr hbt
  simp [get_current_exchange_rate, hbeq,
    activeRecords_after_update s b t r src m now now' hnn, mostRecentRecord]

/-- Claim C5: cache invalidation on update.  After
`CurrencyUtils.updateExchangeRate` succeeds, the cache entry of the
updated (base, target) pair is gone, and an immediately following
`getCurrentExchangeRate` for the pair fetches and returns the newly
stored rate rather than any previously cached value, regardless of how
fresh such a cached value was. -/
theorem cache_invalidated_on_update (s : RateStore) (cache : RateCache)
    (b t : String) (r : ℚ) (src : String) (m : Bool) (now now' : Nat)
    (hbt : b ≠ t) (hr : r ≠ 0) (hnn : now ≤ now') :
    cacheLookup (CurrencyUtils.updateExchangeRate s cache b t r src m now).2
      (b ++ "_" ++ t) = none ∧
    (CurrencyUtils.getCurrentExchangeRate
      (CurrencyUtils.updateExchangeRate s cache b t r src m now).1.rates
      (CurrencyUtils.updateExchangeRate s cache b t r src m now).2
      b t now').1 = r := by
  constructor
  · exact cacheLookup_cacheDelete_self cache (b ++ "_" ++ t)
  · have hbeq : (b == t) = false := beq_eq_false_iff_ne.mpr hbt
    have hdel := cacheLookup_cacheDelete_self cache (b ++ "_" ++ t)
    have hrate := get_rate_after_update s b t r src m now now' hbt hnn
    have hr0 : (r == 0) = false := beq_eq_false_iff_ne.mpr hr
    simp [CurrencyUtils.getCurrentExchangeRate, CurrencyUtils.updateExchangeRate,
      hbeq, hdel, hrate, hr0]

/-- Witness for cache invalidation: a stale cached USD to EUR value of
1/2 is discarded and the freshly stored 17/20 is returned. -/
theorem cache_invalidated_on_update_witness :
    cacheLookup
      (CurrencyUtils.updateExchangeRate emptyStore
        [("USD_EUR", { rate := 1/2, timestamp := 0 })]
        "USD" "EUR" (17/20) "manual" true 1).2 ("USD" ++ "_" ++ "EUR") = none ∧
    (CurrencyUtils.getCurrentExchangeRate
      (CurrencyUtils.updateExchangeRate emptyStore
        [("USD_EUR", { rate := 1/2, timestamp := 0 })]
        "USD" "EUR" (17/20) "manual" true 1).1.rates
      (CurrencyUtils.updateExchangeRate emptyStore
        [("USD_EUR", { rate := 1/2, timestamp := 0 })]
        "USD" "EUR" (17/20) "manual" true 1).2
      "USD" "EUR" 2).1 = 17/20 :=
  cache_invalidated_on_update emptyStore
    [("USD_EUR", { rate := 1/2, timestamp := 0 })]
    "USD" "EUR" (17/20) "manual" true 1 2
    (by decide) (by norm_num) (by decide)

/-- Claim C10: frame property of the update on the cache.  A successful
`updateExchangeRate` deletes exactly the entry keyed
`base ++ "_" ++ target`; every entry under any other key — the
reverse-direction key included — is untouched, so a fresh cached
reverse-direction entry is still returned by a subsequent
`getCurrentExchangeRate(target, base)` within the TTL, even though it
was computed from the superseded rate. -/
theorem update_cache_frame (s : RateStore) (cache : RateCache) (b t : String)
    (r : ℚ) (src : String) (m : Bool) (now : Nat) :
    cacheLookup (CurrencyUtils.updateExchangeRate s cache b t r src m now).2
      (b ++ "_" ++ t) = none ∧
    (∀ k, k ≠ b ++ "_" ++ t →
      cacheLookup (CurrencyUtils.updateExchangeRate s cache b t r src m now).2 k =
        cacheLookup cache k) ∧
    (∀ (e : CacheEntry) (now' : Nat), t ≠ b →
      t ++ "_" ++ b ≠ b ++ "_" ++ t →
      cacheLookup cache (t ++ "_" ++ b) = some e →
      now' - e.timestamp < CACHE_DURATION →
      (CurrencyUtils.getCurrentExchangeRate
        (CurrencyUtils.updateExchangeRate s cache b t r src m now).1.rates
        (CurrencyUtils.updateExchangeRate s cache b t r src m now).2
        t b now').1 = e.rate) := by
  refine ⟨cacheLookup_cacheDelete_self cache _, ?_, ?_⟩
  · intro k hk
    exact cacheLookup_cacheDelete_ne cache (b ++ "_" ++ t) k hk
  · intro e now' htb hkeys hcached hfresh
    have hbeq : (t == b) = false := beq_eq_false_iff_ne.mpr htb
    have hlook : cacheLookup (cacheDelete cache (b ++ "_" ++ t)) (t ++ "_" ++ b) =
        some e := by
      rw [cacheLookup_cacheDelete_ne cache _ _ hkeys]
      exact hcached
    simp [CurrencyUtils.getCurrentExchangeRate, CurrencyUtils.updateExchangeRate,
      hbeq, hlook, hfresh]

/-- Witness for the cache frame property: updating USD to EUR leaves
both the cached reverse entry EUR to USD and an unrelated USD to GBP
entry in place, and the fresh reverse entry is still served. -/
theorem update_cache_frame_witness :
    cacheLookup
      (CurrencyUtils.updateExchangeRate emptyStore
        [("EUR_USD", { rate := 5/4, timestamp := 50 }),
         ("USD_GBP", { rate := 73/100, timestamp := 60 })]
        "USD" "EUR" (17/20) "api" false 70).2 ("USD" ++ "_" ++ "EUR") = none ∧
    cacheLookup
      (CurrencyUtils.updateExchangeRate emptyStore
        [("EUR_USD", { rate := 5/4, timestamp := 50 }),
         ("USD_GBP", { rate := 73/100, timestamp := 60 })]
        "USD" "EUR" (17/20) "api" false 70).2 "USD_GBP" =
      cacheLookup
        [("EUR_USD", { rate := 5/4, timestamp := 50 }),
         ("USD_GBP", { rate := 73/100, timestamp := 60 })] "USD_GBP" ∧
    (CurrencyUtils.getCurrentExchangeRate
      (CurrencyUtils.updateExchangeRate emptyStore
        [("EUR_USD", { rate := 5/4, timestamp := 50 }),
         ("USD_GBP", { rate := 73/100, timestamp := 60 })]
        "USD" "EUR" (17/20) "api" false 70).1.rates
      (CurrencyUtils.updateExchangeRate emptyStore
        [("EUR_USD", { rate := 5/4, timestamp := 50 }),
         ("USD_GBP", { rate := 73/100, timestamp := 60 })]
        "USD" "EUR" (17/20) "api" false 70).2
      "EUR" "USD" 100).1 = (5 : ℚ)/4 := by
  refine ⟨?_, ?_, ?_⟩
  · exact (update_cache_frame emptyStore _ "USD" "EUR" (17/20) "api" false 70).1
  · exact (update_cache_frame emptyStore _ "USD" "EUR" (17/20) "api" false 70).2.1
      "USD_GBP" (by decide)
  · exact (update_cache_frame emptyStore _ "USD" "EUR" (17/20) "api" false 70).2.2
      { rate := 5/4, timestamp := 50 } 100 (by decide) (by decide) rfl (by decide)
